import Mathlib

/-!
# Verification of the rvidmaker core logic

Shallow embedding of the two source files of the repository
`jcbrockschmidt/reddit-vid-maker`:

* `rvidmaker/uploaders/youtube.py` — the YouTube upload driver
  (argument validation, credential lookup, resumable upload loop with
  randomized exponential backoff);
* `rvidmaker/readers/reddit.py` — the Reddit reader (listing filters and
  score-descending sort, comment-chain expansion, video/audio reference
  resolution, copy-on-read child comments).

Pure logic is translated to Lean functions; the external world (file
system, credential store, network responses, the random number stream)
is passed in explicitly as data.  Python `int` scores become `Int`,
Python `float` quantities (ages, durations, thresholds, random draws)
become `ℚ`.
-/

namespace RVidMaker

/-- Dynamic (Python-style) values, used where the source performs runtime
`type(...)` checks on arguments (`YouTubeUploader.upload`,
`youtube.py:192-201`). -/
inductive PyVal where
  /-- a `str` value -/
  | str (s : String)
  /-- an `int` value -/
  | int (n : Int)
  /-- a `set` value (only its elements matter here) -/
  | set (elems : List String)
  /-- a `float` value -/
  | float (q : ℚ)
  /-- the `None` value -/
  | pyNone
  deriving DecidableEq, Repr

/-- `type(v) == str` -/
def PyVal.isStr : PyVal → Bool
  | .str _ => true
  | _ => false

/-- `type(v) == int` -/
def PyVal.isInt : PyVal → Bool
  | .int _ => true
  | _ => false

/-- `type(v) == set` -/
def PyVal.isSet : PyVal → Bool
  | .set _ => true
  | _ => false

/-- The exception classes of the two source files.  `typeError` and
`valueError` are Python builtins; the others are defined in
`youtube.py:67-72` and `reddit.py:19-31`. -/
inductive PyExc where
  | typeError (msg : String)
  | valueError (msg : String)
  | authException (msg : String)
  | uploadException (msg : String)
  | redditApiException (msg : String)
  | redditVideoNotFound
  | notImplementedError
  deriving DecidableEq, Repr

/-- The spec's error-taxonomy kind (spec §7) of each concrete Python
exception class of this repository.  `ValueError` is the class raised by
the eager caller-input checks of `upload` (spec: `InvalidArgument`);
`RedditApiException` is the class the reader wraps transport/API failures
into (spec: `SourceApiError`); `AuthException` is `NotAuthenticated`;
`UploadException` is `UploadFailed`; `RedditVideoNotFound` is
`VideoNotFound`; `NotImplementedError` is `NotImplemented`.  `TypeError`
is outside the spec's taxonomy. -/
inductive SpecErrorKind where
  | invalidArgument
  | notAuthenticated
  | sourceApiError
  | videoNotFound
  | notImplementedKind
  | uploadFailed
  | typeFault
  deriving DecidableEq, Repr

/-- Maps a raised exception class to the spec's taxonomy kind (spec §7). -/
def specKind : PyExc → SpecErrorKind
  | .typeError _ => .typeFault
  | .valueError _ => .invalidArgument
  | .authException _ => .notAuthenticated
  | .uploadException _ => .uploadFailed
  | .redditApiException _ => .sourceApiError
  | .redditVideoNotFound => .videoNotFound
  | .notImplementedError => .notImplementedKind

/-! ## YouTube uploader (`rvidmaker/uploaders/youtube.py`) -/

/-- `_VALID_PRIVACY_STATUSES` (youtube.py:23). -/
def VALID_PRIVACY_STATUSES : List String := ["public", "private", "unlisted"]

/-- `_MAX_RETRIES` (youtube.py:26). -/
def MAX_RETRIES : Nat := 10

/-- `_RETRIABLE_STATUS_CODES` (youtube.py:33). -/
def RETRIABLE_STATUS_CODES : List Nat := [500, 502, 503, 504]

/-- A stored OAuth credential as seen by `oauth2client` `Storage.get()`
(youtube.py:78-83): only its `invalid` flag matters to `_get_creds`. -/
structure Cred where
  invalid : Bool
  deriving DecidableEq, Repr

/-- The state of the local OAuth token artifact: whether the oauth file
exists, and what `Storage.get()` would return when it does. -/
structure CredStore where
  oauthFileExists : Bool
  storedCred : Option Cred
  deriving DecidableEq, Repr

/-- `YouTubeUploader._get_creds` (youtube.py:78-83): returns the stored
credential if the oauth file exists, `Storage.get()` is not `None` and the
credential is not invalid; otherwise returns `None` (falling off the end
of the Python function). -/
def get_creds (cs : CredStore) : Option Cred :=
  if cs.oauthFileExists then
    match cs.storedCred with
    | some c => if ¬c.invalid then some c else none
    | none => none
  else none

/-- One behavior of a call to `insert_request.next_chunk()` inside
`_resumable_upload` (youtube.py:101): either it returns a response dict
(modelled as an association list of string fields), returns `None`
(upload still in progress), or raises one of the exception classes the
`try` block distinguishes. -/
inductive ChunkEvent where
  /-- `next_chunk()` returned a non-`None` response dict -/
  | response (fields : List (String × String))
  /-- `next_chunk()` returned `None`: still in progress, keep polling -/
  | progress
  /-- `next_chunk()` raised `apiclient.errors.HttpError` with this status -/
  | httpError (status : Nat)
  /-- `next_chunk()` raised `httplib2.HttpLib2Error` or `IOError`
  (`_RETRIABLE_EXCEPTIONS`, youtube.py:29) -/
  | transportError
  /-- `next_chunk()` raised any other exception -/
  | otherError
  deriving DecidableEq, Repr

/-- Outcome of one iteration of the `try` block of `_resumable_upload`
(youtube.py:100-123): either the loop is decided (return value or raised
exception), or the response was `None` with no error (keep polling), or a
retriable error was recorded in `error`. -/
inductive StepOut where
  | ok (id : String)
  | raised (e : PyExc)
  | poll
  | fault
  deriving DecidableEq, Repr

/-- The body of the `try` block of `_resumable_upload` (youtube.py:100-123)
applied to one `next_chunk()` behavior. -/
def stepOfEvent : ChunkEvent → StepOut
  | .response fields =>
    match fields.lookup "id" with
    | some v => .ok v
    | none => .raised (.uploadException "The upload failed with an unexpected response")
  | .progress => .poll
  | .httpError s =>
    if RETRIABLE_STATUS_CODES.contains s then .fault
    else .raised (.uploadException ("An HTTP error " ++ toString s ++ " occurred"))
  | .transportError => .fault
  | .otherError => .raised (.uploadException "An unexpected error occurred")

/-- Whether a `next_chunk()` behavior is one the loop retries: a transport
fault, or an HTTP fault whose status is in `_RETRIABLE_STATUS_CODES`. -/
def retriableEvent : ChunkEvent → Bool
  | .httpError s => RETRIABLE_STATUS_CODES.contains s
  | .transportError => true
  | _ => false

/-- Result of the `_resumable_upload` loop, plus its observable trace. -/
inductive LoopResult where
  /-- `return response["id"]` (youtube.py:104) -/
  | ok (id : String)
  /-- an exception was raised out of the loop -/
  | raised (e : PyExc)
  /-- the supplied event list was exhausted while the Python loop would
  keep calling `next_chunk()` -/
  | starved
  deriving DecidableEq, Repr

/-- One run of the `_resumable_upload` loop: its result, the backoff sleep
durations in order (`time.sleep(sleep_seconds)`, youtube.py:137), and the
number of `next_chunk()` network calls made. -/
structure LoopRun where
  result : LoopResult
  sleeps : List ℚ
  calls : Nat
  deriving DecidableEq, Repr

/-- `YouTubeUploader._resumable_upload` (youtube.py:85-137).  The loop is
driven by the list of `next_chunk()` behaviors and the stream of
`random.random()` draws.  `errFlag` models the source's `error` variable,
which is set by the except branches and **never reset** inside the loop:
once a retriable fault has been recorded, every later iteration that
reaches the `if error is not None:` block (youtube.py:125) — including an
in-progress poll where `next_chunk()` returns `None` — runs the backoff
block again: `retry += 1`; if `retry > _MAX_RETRIES` raise
`UploadException`; else sleep `random.random() * 2 ** retry` seconds.  A
response carrying an id returns from inside the `try`, before that
block.  `_resumable_upload` enters the loop with `error = None` and
`retry = 0`. -/
def resumableUploadLoop : List ChunkEvent → List ℚ → Nat → Bool → LoopRun
  | [], _, _, _ => ⟨.starved, [], 0⟩
  | e :: rest, rands, retry, errFlag =>
    match stepOfEvent e with
    | .ok v => ⟨.ok v, [], 1⟩
    | .raised exc => ⟨.raised exc, [], 1⟩
    | .poll =>
      if errFlag then
        if MAX_RETRIES < retry + 1 then
          ⟨.raised (.uploadException "No longer attempting to retry"), [], 1⟩
        else
          let sleep := rands.headD 0 * 2 ^ (retry + 1)
          let k := resumableUploadLoop rest rands.tail (retry + 1) true
          ⟨k.result, sleep :: k.sleeps, k.calls + 1⟩
      else
        let k := resumableUploadLoop rest rands retry false
        ⟨k.result, k.sleeps, k.calls + 1⟩
    | .fault =>
      if MAX_RETRIES < retry + 1 then
        ⟨.raised (.uploadException "No longer attempting to retry"), [], 1⟩
      else
        let sleep := rands.headD 0 * 2 ^ (retry + 1)
        let k := resumableUploadLoop rest rands.tail (retry + 1) true
        ⟨k.result, sleep :: k.sleeps, k.calls + 1⟩

/-- What a call to `upload` can produce: a raised exception, or a returned
value — which is either the uploaded video id, or (due to the `return`
at youtube.py:213) an `AuthException` object returned as an ordinary
value. -/
inductive UploadOutcome where
  | raised (e : PyExc)
  | returned (id : String)
  /-- the value of `AuthException(...)` returned (not raised) at
  youtube.py:213 -/
  | returnedExcObj (e : PyExc)
  /-- the supplied chunk-event list was exhausted -/
  | starved
  deriving DecidableEq, Repr

/-- The external world of one `upload` call: the file system predicate
`os.path.isfile`, the credential store, the behaviors of successive
`next_chunk()` calls, and the `random.random()` stream. -/
structure UploadEnv where
  isfile : String → Bool
  creds : CredStore
  events : List ChunkEvent
  rands : List ℚ

/-- One run of `upload`: its outcome, the number of network interactions
(the `build(...)` call plus each `next_chunk()` call), and the backoff
sleeps performed. -/
structure UploadRun where
  outcome : UploadOutcome
  networkCalls : Nat
  sleeps : List ℚ
  deriving DecidableEq, Repr

/-- `privacy_status not in _VALID_PRIVACY_STATUSES` (youtube.py:206),
negated: membership of an arbitrary value in a tuple of strings. -/
def privacyOk : PyVal → Bool
  | .str s => VALID_PRIVACY_STATUSES.contains s
  | _ => false

/-- `YouTubeUploader.upload` (youtube.py:167-234): type checks in source
order (path, title, desc, tags, category), then value checks in source
order (file existence, category range, privacy status), then the
credential lookup (returning — not raising — an `AuthException` when no
valid credential is available), then `build(...)` and the resumable
upload loop. -/
def upload (env : UploadEnv) (path title desc tags category privacy : PyVal) :
    UploadRun :=
  match path with
  | .str p =>
    if ¬title.isStr then ⟨.raised (.typeError "title must be of type str"), 0, []⟩
    else if ¬desc.isStr then ⟨.raised (.typeError "desc must be of type str"), 0, []⟩
    else if ¬tags.isSet then ⟨.raised (.typeError "tags must be of type set"), 0, []⟩
    else
      match category with
      | .int c =>
        if ¬env.isfile p then
          ⟨.raised (.valueError ("\"" ++ p ++ "\" is not a file")), 0, []⟩
        else if c ≤ 0 then
          ⟨.raised (.valueError "category must be greater than 0"), 0, []⟩
        else if ¬privacyOk privacy then
          ⟨.raised (.valueError "privacy_status must be either public, private, or unlisted"), 0, []⟩
        else
          match get_creds env.creds with
          | none =>
            ⟨.returnedExcObj (.authException "Application has not been authenticated yet"), 0, []⟩
          | some _ =>
            let run := resumableUploadLoop env.events env.rands 0 false
            match run.result with
            | .ok vid => ⟨.returned vid, 1 + run.calls, run.sleeps⟩
            | .raised e => ⟨.raised e, 1 + run.calls, run.sleeps⟩
            | .starved => ⟨.starved, 1 + run.calls, run.sleeps⟩
      | _ => ⟨.raised (.typeError "category must be of type int"), 0, []⟩
  | _ => ⟨.raised (.typeError "path must be of type str"), 0, []⟩

/-! ## Reddit reader (`rvidmaker/readers/reddit.py`) -/

/-- `VALID_TIME_FILTERS` (reddit.py:16). -/
def VALID_TIME_FILTERS : List String := ["all", "day", "hour", "month", "week", "year"]

/-- An article as `_filter_articles` and the listing sorts observe it:
its `score` attribute (an `int`) and its `age` attribute (hours since
posting, a `float`). -/
structure Article where
  score : Int
  age : ℚ
  deriving DecidableEq, Repr

/-- The loop body of `RedditReader._filter_articles` (reddit.py:324-334):
an article is kept unless `min_score` is given and `art.score < min_score`,
or `min_age` is given and `art.age < min_age`. -/
def keepArticle (minScore : Option Int) (minAge : Option ℚ) (art : Article) : Bool :=
  (match minScore with
   | some ms => if art.score < ms then false else true
   | none => true) &&
  (match minAge with
   | some ma => if art.age < ma then false else true
   | none => true)

/-- `RedditReader._filter_articles` (reddit.py:324-334). -/
def filterArticles (articles : List Article) (minScore : Option Int)
    (minAge : Option ℚ) : List Article :=
  articles.filter (keepArticle minScore minAge)

/-- Insertion step of a stable score-descending sort: `x` goes after every
already-placed element whose score is ≥ `x.score` — exactly where CPython's
stable `list.sort(key=lambda x: x.score, reverse=True)` leaves it relative
to earlier elements. -/
def insertByScoreDesc (x : Article) : List Article → List Article
  | [] => [x]
  | y :: ys => if x.score ≤ y.score then y :: insertByScoreDesc x ys else x :: y :: ys

/-- `filtered.sort(key=lambda x: x.score, reverse=True)`
(reddit.py:364 and reddit.py:402): stable descending sort by score,
modelled as left-to-right stable insertion. -/
def sortByScoreDesc (l : List Article) : List Article :=
  l.foldl (fun acc x => insertByScoreDesc x acc) []

/-- `RedditReader.get_hot_articles` (reddit.py:336-365), with the raw
listing fetched from the subreddit supplied as data: wrap, filter, then
sort by score descending. -/
def get_hot_articles (raw : List Article) (minScore : Option Int)
    (minAge : Option ℚ) : List Article :=
  sortByScoreDesc (filterArticles raw minScore minAge)

/-- The message of the `RedditApiException` raised for a bad time filter
(reddit.py:388-390); the source interpolates `VALID_TIME_FILTERS` into it. -/
def timeFilterMsg : String := "time_filter must be one of (all, day, hour, month, week, year)"

/-- `RedditReader.get_top_articles` (reddit.py:367-403): the time filter is
validated first (raising `RedditApiException` — reddit.py:387-390); only
then is the raw listing fetched (supplied here as data), filtered and
sorted. -/
def get_top_articles (timeFilter : String) (raw : List Article)
    (minScore : Option Int) (minAge : Option ℚ) : Except PyExc (List Article) :=
  if ¬VALID_TIME_FILTERS.contains timeFilter then
    .error (.redditApiException timeFilterMsg)
  else
    .ok (sortByScoreDesc (filterArticles raw minScore minAge))

/-! ### Comment trees and `_expand_comment` -/

/-- A node of a raw praw reply tree: either a true comment
(`praw.models.reddit.comment.Comment`) carrying a score and its direct
replies, or any other node (e.g. a `MoreComments` placeholder), which the
`isinstance` checks at reddit.py:166 and reddit.py:199 skip. -/
inductive RawNode where
  | comment (score : Int) (author : Option String) (body : String) (replies : List RawNode)
  | more

/-- Whether a node passes the `isinstance(..., Comment)` check. -/
def RawNode.isComment : RawNode → Bool
  | .comment _ _ _ _ => true
  | .more => false

/-- The `score` attribute of a node (only ever read on comment nodes). -/
def RawNode.score : RawNode → Int
  | .comment s _ _ _ => s
  | .more => 0

/-- The `replies` attribute of a node (only ever read on comment nodes). -/
def RawNode.replies : RawNode → List RawNode
  | .comment _ _ _ rs => rs
  | .more => []

/-- The comment nodes of a reply list, in order: the elements the
`for reply in praw_comment.replies` loop does not skip. -/
def commentNodes (l : List RawNode) : List RawNode :=
  l.filter RawNode.isComment

/-- The value content of a `RedditComment` built by
`RedditComment.from_praw` (reddit.py:57-66). -/
structure CommentVal where
  author : Option String
  text : String
  score : Int
  deriving DecidableEq, Repr

/-- `RedditComment.from_praw` (reddit.py:57-66) on a comment node. -/
def RawNode.toVal : RawNode → CommentVal
  | .comment s a b _ => ⟨a, b, s⟩
  | .more => ⟨none, "", 0⟩

/-- The best-reply scan of `_expand_comment` (reddit.py:163-171): walk the
replies in order, skip non-comments, keep the current best, replace it only
on a strictly greater score (so ties keep the first-seen reply). -/
def bestReplyAux : Option RawNode → List RawNode → Option RawNode
  | best, [] => best
  | best, r :: rest =>
    if r.isComment then
      match best with
      | none => bestReplyAux (some r) rest
      | some b => if b.score < r.score then bestReplyAux (some r) rest else bestReplyAux best rest
    else bestReplyAux best rest

/-- The `best_reply` value after the scan loop of `_expand_comment`. -/
def bestReply (replies : List RawNode) : Option RawNode :=
  bestReplyAux none replies

/-- The chain of comments that `RedditArticle._expand_comment`
(reddit.py:159-177) attaches below a comment of score `parentScore`, with
the recursion depth given as a natural-number fuel.  Each step: if the
depth is exhausted stop; find the best reply; attach it only if
`best_reply.score > comment.score * percent_thres` (reddit.py:174, an
`int`-times-`float` comparison, modelled over `ℚ`); recurse on the
attached reply with one less depth. -/
def expandChainN : List RawNode → Int → ℚ → Nat → List CommentVal
  | _, _, _, 0 => []
  | replies, parentScore, thres, d + 1 =>
    match bestReply replies with
    | none => []
    | some br =>
      if (parentScore : ℚ) * thres < (br.score : ℚ) then
        br.toVal :: expandChainN br.replies br.score thres d
      else []

/-- `RedditArticle._expand_comment` (reddit.py:159-177) with its Python
`int` depth: the guard `max_depth <= 0` and the recursive call with
`max_depth - 1` correspond exactly to fuel `maxDepth.toNat` (a
non-positive depth gives fuel 0, and `(d - 1).toNat = d.toNat - 1` for
`d > 0`) — see `expandChain_eq`. -/
def expandChain (replies : List RawNode) (parentScore : Int) (maxDepth : Int)
    (thres : ℚ) : List CommentVal :=
  expandChainN replies parentScore thres maxDepth.toNat

/-- The Python-shaped unfolding of `expandChain`, establishing that the
`Int.toNat` fuel translation matches the source recursion
(`if max_depth <= 0: return` and the `max_depth - 1` recursive call). -/
theorem expandChain_eq (replies : List RawNode) (parentScore : Int)
    (maxDepth : Int) (thres : ℚ) :
    expandChain replies parentScore maxDepth thres =
      if maxDepth ≤ 0 then []
      else
        match bestReply replies with
        | none => []
        | some br =>
          if (parentScore : ℚ) * thres < (br.score : ℚ) then
            br.toVal :: expandChain br.replies br.score (maxDepth - 1) thres
          else [] := by
  unfold expandChain
  rcases le_or_lt maxDepth 0 with h | h
  · rw [if_pos h, Int.toNat_of_nonpos h]
    rfl
  · rw [if_neg (not_le.mpr h)]
    obtain ⟨n, hn⟩ : ∃ n : Nat, maxDepth.toNat = n + 1 :=
      ⟨maxDepth.toNat - 1, by omega⟩
    rw [hn]
    have : (maxDepth - 1).toNat = n := by omega
    rw [this]
    rfl

/-- The threshold discipline of an attached chain below a parent of score
`parentScore`: each link's score strictly exceeds its parent's score times
the threshold (Bool-valued so that concrete instances evaluate). -/
def chainBelow (parentScore : Int) (thres : ℚ) : List CommentVal → Bool
  | [] => true
  | c :: rest =>
    decide ((parentScore : ℚ) * thres < (c.score : ℚ)) && chainBelow c.score thres rest

/-! ### URL handling and video resolution

`get_video` (reddit.py:253-296) manipulates the fallback URL through
`urllib.parse.urlsplit` / `urljoin` / `urlunsplit` and
`os.path.splitext`.  These standard-library helpers are embedded below
over `List Char`, following the CPython algorithms on the class of inputs
the source feeds them (HTTP/S URLs, and a plain relative filename as the
second argument of `urljoin`). -/

/-- Splits a character list at the first occurrence of `c`: the part
before it, and — when present — the part after it. -/
def splitAtFirst (c : Char) : List Char → List Char × Option (List Char)
  | [] => ([], none)
  | x :: xs =>
    if x = c then ([], some xs)
    else
      let p := splitAtFirst c xs
      (x :: p.1, p.2)

/-- The index of the last occurrence of `c`, like Python's `str.rfind`
(with `none` for "not found"). -/
def lastIndexOf (c : Char) : List Char → Option Nat
  | [] => none
  | x :: xs =>
    match lastIndexOf c xs with
    | some i => some (i + 1)
    | none => if x = c then some 0 else none

/-- A character CPython's `urlsplit` accepts inside a URL scheme. -/
def isSchemeChar (c : Char) : Bool :=
  c.isAlphanum || c = '+' || c = '-' || c = '.'

/-- The five components of `urllib.parse.urlsplit`. -/
structure SplitUrl where
  scheme : String
  netloc : String
  path : String
  query : String
  fragment : String
  deriving DecidableEq, Repr

/-- `urllib.parse.urlsplit` (CPython): strip a valid scheme before the
first `:`, a `//`-introduced netloc delimited by `/`, `?` or `#`, then
split off the fragment at the first `#` and the query at the first `?`. -/
def urlsplit (url : String) : SplitUrl :=
  let cs := url.toList
  let schemeSplit :=
    match splitAtFirst ':' cs with
    | (pre, some post) =>
      if !pre.isEmpty && pre.all isSchemeChar then (pre.map Char.toLower, post)
      else (([] : List Char), cs)
    | (_, none) => (([] : List Char), cs)
  let netlocSplit :=
    match schemeSplit.2 with
    | '/' :: '/' :: tail =>
      let span := tail.span (fun c => c ≠ '/' && c ≠ '?' && c ≠ '#')
      (span.1, span.2)
    | rest => (([] : List Char), rest)
  let fragSplit :=
    match splitAtFirst '#' netlocSplit.2 with
    | (pre, some post) => (pre, post)
    | (pre, none) => (pre, [])
  let querySplit :=
    match splitAtFirst '?' fragSplit.1 with
    | (pre, some post) => (pre, post)
    | (pre, none) => (pre, [])
  ⟨String.mk schemeSplit.1, String.mk netlocSplit.1, String.mk querySplit.1,
    String.mk querySplit.2, String.mk fragSplit.2⟩

/-- `os.path.splitext` (posixpath): split at the last `.` when it comes
after the last `/` and the basename does not consist of leading dots only
(so `.bashrc`-style names have no extension). -/
def splitext (p : List Char) : List Char × List Char :=
  match lastIndexOf '.' p with
  | none => (p, [])
  | some dotIndex =>
    let nameStart :=
      match lastIndexOf '/' p with
      | some sepIndex => sepIndex + 1
      | none => 0
    if nameStart ≤ dotIndex then
      let base := (p.drop nameStart).take (dotIndex - nameStart)
      if base.all (· = '.') then (p, [])
      else (p.take dotIndex, p.drop dotIndex)
    else (p, [])

/-- `urllib.parse.urljoin base ref` for the case the source uses at
reddit.py:281: `base` a plain path and `ref` a relative filename with no
`/`, `:`, `?` or `#` and no `.`/`..` segments.  CPython then replaces the
last segment of `base` with `ref`. -/
def urljoinLastSegment (base ref : List Char) : List Char :=
  match lastIndexOf '/' base with
  | some i => base.take (i + 1) ++ ref
  | none => ref

/-- `urllib.parse.urlunsplit` (CPython): reassemble
`scheme://netloc/path?query#fragment`, emitting each delimiter only when
its component is non-empty. -/
def urlunsplit (u : SplitUrl) : String :=
  let path := u.path.toList
  let withNetloc :=
    if !u.netloc.toList.isEmpty || path.take 2 = ['/', '/'] then
      let path2 := match path with
        | '/' :: _ => path
        | [] => path
        | _ => '/' :: path
      '/' :: '/' :: u.netloc.toList ++ path2
    else path
  let withScheme :=
    if !u.scheme.toList.isEmpty then u.scheme.toList ++ ':' :: withNetloc
    else withNetloc
  let withQuery :=
    if !u.query.toList.isEmpty then withScheme ++ '?' :: u.query.toList
    else withScheme
  let withFrag :=
    if !u.fragment.toList.isEmpty then withQuery ++ '#' :: u.fragment.toList
    else withQuery
  String.mk withFrag

/-- The audio-URL derivation of `get_video` (reddit.py:274-284): split the
fallback URL, take its path, compute the path's extension; the candidate
audio basename is `DASH_audio.mp4` when the extension is `.mp4` and the
literal `audio` otherwise; join the basename onto the path (replacing the
final segment), blank the query and fragment, and reassemble. -/
def deriveAudioUrl (videoUrl : String) : String :=
  let u := urlsplit videoUrl
  let audioUrlPath := u.path.toList
  let audioExt := (splitext audioUrlPath).2
  let audioBasename :=
    if audioExt = ".mp4".toList then "DASH_audio.mp4".toList else "audio".toList
  let newPath := urljoinLastSegment audioUrlPath audioBasename
  urlunsplit ⟨u.scheme, u.netloc, String.mk newPath, "", ""⟩

/-- The `reddit_video` entry of an article's media dict
(reddit.py:231-238, 267-273): its `is_gif` flag, `duration` and
`fallback_url`. -/
structure RedditVideo where
  is_gif : Bool
  duration : ℚ
  fallback_url : String
  deriving DecidableEq, Repr

/-- An article's `media` dict as `has_video` and `get_video` read it: the
optional `reddit_video` entry and the optional `type` entry (named
`mediaType` here since `type` is reserved in Lean), with the source's
`elif` giving `reddit_video` precedence. -/
structure MediaDict where
  reddit_video : Option RedditVideo
  mediaType : Option String
  deriving DecidableEq, Repr

/-- `RedditArticle.has_video` (reddit.py:215-244): a non-GIF native video
whose duration satisfies the optional bounds qualifies; otherwise a media
dict whose `type` is `youtube.com` qualifies when `include_youtube`;
otherwise the article has no scrapeable video. -/
def has_video (media : Option MediaDict) (minDuration maxDuration : Option ℚ)
    (includeYoutube : Bool) : Bool :=
  match media with
  | none => false
  | some m =>
    match m.reddit_video with
    | some rv =>
      if !rv.is_gif then
        (match maxDuration with
         | some mx => decide (rv.duration ≤ mx)
         | none => true) &&
        (match minDuration with
         | some mn => decide (mn ≤ rv.duration)
         | none => true)
      else false
    | none =>
      match m.mediaType with
      | some t => t == "youtube.com" && includeYoutube
      | none => false

/-- The video reference built at reddit.py:291-293
(`RedditVideoRef(title, author, video_url, audio_url, duration)`). -/
structure VideoRef where
  title : String
  author : Option String
  videoUrl : String
  audioUrl : Option String
  duration : ℚ
  deriving DecidableEq, Repr

/-- `RedditArticle.get_video` (reddit.py:253-296), with the HEAD probe of
reddit.py:287 supplied as a status-code function: raise
`RedditVideoNotFound` when `has_video()` (at its default arguments) is
false; for a native video, derive the candidate audio URL and drop it
unless the probe returns exactly 200; for a YouTube media dict, raise
`NotImplementedError`. -/
def get_video (title : String) (author : Option String)
    (media : Option MediaDict) (headStatus : String → Nat) :
    Except PyExc VideoRef :=
  if ¬has_video media none none true then .error .redditVideoNotFound
  else
    match media with
    | none => .error .redditVideoNotFound
    | some m =>
      match m.reddit_video with
      | some rv =>
        let videoUrl := rv.fallback_url
        let audioUrl := deriveAudioUrl videoUrl
        let audio := if headStatus audioUrl ≠ 200 then none else some audioUrl
        .ok ⟨title, author, videoUrl, audio, rv.duration⟩
      | none => .error .notImplementedError

/-- Whether an HTTP status code is a success (2xx) status. -/
def isSuccessStatus (s : Nat) : Bool :=
  200 ≤ s && s < 300

/-! ### Object semantics of `RedditComment.child` (reddit.py:68-78)

`RedditComment` stores `_child` as a reference to another comment
object; the `child` getter returns `copy(self._child)` — a freshly
allocated shallow copy — and the setter stores the given reference.  To
state the aliasing claim faithfully, comment objects live in an explicit
heap of numbered objects. -/

/-- The mutable state of one `RedditComment` object: its `_author`,
`_text`, `_score` and `_child` fields, the last a reference (object id)
or `None` (reddit.py:52-55). -/
structure CommentObj where
  author : Option String
  text : String
  score : Int
  childRef : Option Nat
  deriving DecidableEq, Repr

/-- A heap of `RedditComment` objects: an association list from object
ids to object states, and the next fresh id. -/
structure Heap where
  objs : List (Nat × CommentObj)
  next : Nat
  deriving DecidableEq, Repr

/-- Association-list lookup by object id. -/
def lookupRef : List (Nat × CommentObj) → Nat → Option CommentObj
  | [], _ => none
  | kv :: rest, r => if kv.1 = r then some kv.2 else lookupRef rest r

/-- Dereference an object id. -/
def Heap.lookup (h : Heap) (r : Nat) : Option CommentObj :=
  lookupRef h.objs r

/-- Allocate a new object (as `copy.copy` does), returning the new heap
and the fresh id. -/
def Heap.alloc (h : Heap) (o : CommentObj) : Heap × Nat :=
  (⟨(h.next, o) :: h.objs, h.next + 1⟩, h.next)

/-- Overwrite the state of object `r`. -/
def Heap.update (h : Heap) (r : Nat) (o : CommentObj) : Heap :=
  ⟨h.objs.map (fun kv => if kv.1 = r then (r, o) else kv), h.next⟩

/-- The `child` property getter (reddit.py:72-74): `return copy(self._child)`.
`copy.copy(None)` is `None`; copying an object allocates a fresh object
with the same field values (a shallow copy: the `_child` reference inside
it is shared). -/
def childGet (h : Heap) (r : Nat) : Heap × Option Nat :=
  match h.lookup r with
  | none => (h, none)
  | some o =>
    match o.childRef with
    | none => (h, none)
    | some c =>
      match h.lookup c with
      | none => (h, none)
      | some co =>
        let p := h.alloc co
        (p.1, some p.2)

/-- The `child` property setter (reddit.py:76-78): store the given
reference in `self._child`. -/
def childSet (h : Heap) (r : Nat) (v : Option Nat) : Heap :=
  match h.lookup r with
  | none => h
  | some o => h.update r { o with childRef := v }

/-- The observable value of the chain hanging from a reference: follow
`_child` references for at most `fuel` steps, collecting each comment's
field values. -/
def chainVals (h : Heap) : Option Nat → Nat → List (Option String × String × Int)
  | none, _ => []
  | some _, 0 => []
  | some r, fuel + 1 =>
    match h.lookup r with
    | none => []
    | some o => (o.author, o.text, o.score) :: chainVals h o.childRef fuel

/-- Heap well-formedness: every stored id and every stored child
reference is below the fresh-id watermark. -/
def Heap.WF (h : Heap) : Bool :=
  h.objs.all (fun p =>
    decide (p.1 < h.next) &&
      (match p.2.childRef with
       | some c => decide (c < h.next)
       | none => true))

/-! ## Theorems: YouTube uploader -/

/-- A retriable `next_chunk()` behavior is exactly one the `try` block of
`_resumable_upload` turns into a recorded (non-fatal) error. -/
theorem stepOfEvent_fault_of_retriable {e : ChunkEvent}
    (he : retriableEvent e = true) : stepOfEvent e = .fault := by
  cases e <;> simp_all [retriableEvent, stepOfEvent]

/-- **C10.** `upload` type-checks its arguments before any value
validation, raising `TypeError` when `path`, `title` or `desc` is not a
`str`, `tags` is not a `set`, or `category` is not an `int`; these checks
precede the file-existence, category-range, privacy-status and credential
checks (the environment — file system, credential store — is arbitrary
throughout), so in particular a non-`int` category raises `TypeError`
even when the path does not exist. -/
theorem upload_type_checks_precede_value_checks
    (env : UploadEnv) (path title desc tags category privacy : PyVal) :
    (path.isStr = false →
      (upload env path title desc tags category privacy).outcome =
        .raised (.typeError "path must be of type str")) ∧
    (path.isStr = true → title.isStr = false →
      (upload env path title desc tags category privacy).outcome =
        .raised (.typeError "title must be of type str")) ∧
    (path.isStr = true → title.isStr = true → desc.isStr = false →
      (upload env path title desc tags category privacy).outcome =
        .raised (.typeError "desc must be of type str")) ∧
    (path.isStr = true → title.isStr = true → desc.isStr = true →
        tags.isSet = false →
      (upload env path title desc tags category privacy).outcome =
        .raised (.typeError "tags must be of type set")) ∧
    (path.isStr = true → title.isStr = true → desc.isStr = true →
        tags.isSet = true → category.isInt = false →
      (upload env path title desc tags category privacy).outcome =
        .raised (.typeError "category must be of type int")) ∧
    (∀ p : String, path = .str p → env.isfile p = false →
        title.isStr = true → desc.isStr = true → tags.isSet = true →
        category.isInt = false →
      (upload env path title desc tags category privacy).outcome =
        .raised (.typeError "category must be of type int")) := by
  refine ⟨?_, ?_, ?_, ?_, ?_, ?_⟩
  · intro h
    cases path <;> simp_all [upload, PyVal.isStr]
  · intro hp ht
    cases path <;> simp_all [upload, PyVal.isStr]
  · intro hp ht hd
    cases path <;> simp_all [upload, PyVal.isStr]
  · intro hp ht hd hg
    cases path <;> simp_all [upload, PyVal.isStr, PyVal.isSet]
  · intro hp ht hd hg hc
    cases path <;> cases category <;>
      simp_all [upload, PyVal.isStr, PyVal.isSet, PyVal.isInt]
  · intro p hp hfile ht hd hg hc
    subst hp
    cases category <;>
      simp_all [upload, PyVal.isStr, PyVal.isSet, PyVal.isInt]

/-- **C10 (witness).** A non-`int` category raises `TypeError` naming
`category` even when the path does not exist. -/
theorem upload_type_checks_precede_value_checks_witness :
    PyVal.isStr (.str "missing.mp4") = true ∧
    (upload ⟨fun _ => false, ⟨false, none⟩, [], []⟩ (.str "missing.mp4")
        (.str "t") (.str "") (.set []) (.str "22") (.str "unlisted")).outcome =
      .raised (.typeError "category must be of type int") :=
  ⟨by decide,
    (upload_type_checks_precede_value_checks ⟨fun _ => false, ⟨false, none⟩, [], []⟩
        (.str "missing.mp4") (.str "t") (.str "") (.set []) (.str "22")
        (.str "unlisted")).2.2.2.2.2 "missing.mp4" rfl rfl (by decide) (by decide)
        (by decide) (by decide)⟩

/-- **C7.** `upload` validates its (well-typed) inputs in the order
file-existence, category range, privacy status; each violation raises a
`ValueError` (the spec's `InvalidArgument`) naming the offending field,
with zero network calls and with the credential store arbitrary (so before
any credential check); in particular a nonexistent path together with an
invalid category fails citing the path. -/
theorem upload_validation_order
    (env : UploadEnv) (p t d : String) (tags : List String) (c : Int)
    (privacy : PyVal) :
    (env.isfile p = false →
      upload env (.str p) (.str t) (.str d) (.set tags) (.int c) privacy =
        ⟨.raised (.valueError ("\"" ++ p ++ "\" is not a file")), 0, []⟩) ∧
    (env.isfile p = true → c ≤ 0 →
      upload env (.str p) (.str t) (.str d) (.set tags) (.int c) privacy =
        ⟨.raised (.valueError "category must be greater than 0"), 0, []⟩) ∧
    (env.isfile p = true → 0 < c → privacyOk privacy = false →
      upload env (.str p) (.str t) (.str d) (.set tags) (.int c) privacy =
        ⟨.raised (.valueError
          "privacy_status must be either public, private, or unlisted"), 0, []⟩) := by
  refine ⟨?_, ?_, ?_⟩
  · intro hfile
    simp [upload, PyVal.isStr, PyVal.isSet, hfile]
  · intro hfile hc
    simp [upload, PyVal.isStr, PyVal.isSet, hfile, hc]
  · intro hfile hc hpriv
    have hc2 : ¬c ≤ 0 := by omega
    simp [upload, PyVal.isStr, PyVal.isSet, hfile, hc2, hpriv]

/-- **C7 (witness).** With a nonexistent path and an invalid category, the
failure cites the path. -/
theorem upload_validation_order_witness :
    (fun _ : String => false) "missing.mp4" = false ∧
    upload ⟨fun _ => false, ⟨true, some ⟨false⟩⟩, [], []⟩ (.str "missing.mp4")
        (.str "t") (.str "") (.set []) (.int (-5)) (.str "unlisted") =
      ⟨.raised (.valueError "\"missing.mp4\" is not a file"), 0, []⟩ :=
  ⟨rfl,
    (upload_validation_order ⟨fun _ => false, ⟨true, some ⟨false⟩⟩, [], []⟩
        "missing.mp4" "t" "" [] (-5) (.str "unlisted")).1 rfl⟩

/-- **C1 (code bug, evaluated at the failing input).** With a valid path,
category and privacy status but no stored OAuth credential, `upload`
*returns* the `AuthException` object as its ordinary return value —
youtube.py:213 reads `return AuthException(...)` where the docstring
(youtube.py:187) promises it is raised — and performs no network call
(zero network interactions, no sleeps). -/
theorem upload_no_cred_failing_input :
    upload ⟨fun _ => true, ⟨false, none⟩, [], []⟩ (.str "video.mp4")
        (.str "t") (.str "") (.set []) (.int 22) (.str "unlisted") =
      ⟨.returnedExcObj (.authException "Application has not been authenticated yet"),
        0, []⟩ := by
  rfl

/-- Because the source's `error` variable is never reset, an in-progress
poll (`next_chunk()` returning `None`) after an earlier retriable fault
re-enters the backoff block exactly like a fault: it increments the retry
counter (failing when it exceeds the maximum) and sleeps.  Not part of a
claim; it documents the sticky-error behavior of the embedding. -/
theorem resumableUploadLoop_poll_after_fault
    (rest : List ChunkEvent) (r : ℚ) (rands : List ℚ) (retry : Nat) :
    (MAX_RETRIES < retry + 1 →
      resumableUploadLoop (.progress :: rest) (r :: rands) retry true =
        ⟨.raised (.uploadException "No longer attempting to retry"), [], 1⟩) ∧
    (retry + 1 ≤ MAX_RETRIES →
      resumableUploadLoop (.progress :: rest) (r :: rands) retry true =
        ⟨(resumableUploadLoop rest rands (retry + 1) true).result,
          r * 2 ^ (retry + 1) ::
            (resumableUploadLoop rest rands (retry + 1) true).sleeps,
          (resumableUploadLoop rest rands (retry + 1) true).calls + 1⟩) := by
  constructor
  · intro hgt
    simp [resumableUploadLoop, stepOfEvent, hgt]
  · intro hle
    have hnot : ¬MAX_RETRIES < retry + 1 := by omega
    simp [resumableUploadLoop, stepOfEvent, hnot]

/-- **C2.** In the upload loop: every retriable fault (transport fault, or
HTTP fault with status in {500, 502, 503, 504}), from any loop state
(any retry counter, whether or not the sticky `error` variable is already
set), increments the retry counter; when the counter exceeds 10 the loop
raises `UploadException` (the spec's `UploadFailed`, message
"No longer attempting to retry", the source's wording for retries
exhausted); otherwise the loop sleeps `random.random() * 2 ^ retryCount`
seconds — a value in [0, 2 ^ retryCount) — and loops with the incremented
counter and the error variable set (the counter is 1 on the first fault,
since `upload` enters the loop with 0 and an unset error variable); and
for 3 HTTP 503 faults followed by a success response with id "abc123",
`upload` returns "abc123" after exactly 3 backoff sleeps. -/
theorem upload_retry_backoff_loop
    (e : ChunkEvent) (rest : List ChunkEvent) (r : ℚ) (rands : List ℚ)
    (retry : Nat) (errFlag : Bool) (he : retriableEvent e = true)
    (hr0 : 0 ≤ r) (hr1 : r < 1) :
    (MAX_RETRIES < retry + 1 →
      resumableUploadLoop (e :: rest) (r :: rands) retry errFlag =
        ⟨.raised (.uploadException "No longer attempting to retry"), [], 1⟩) ∧
    (retry + 1 ≤ MAX_RETRIES →
      resumableUploadLoop (e :: rest) (r :: rands) retry errFlag =
        ⟨(resumableUploadLoop rest rands (retry + 1) true).result,
          r * 2 ^ (retry + 1) ::
            (resumableUploadLoop rest rands (retry + 1) true).sleeps,
          (resumableUploadLoop rest rands (retry + 1) true).calls + 1⟩ ∧
      0 ≤ r * 2 ^ (retry + 1) ∧ r * 2 ^ (retry + 1) < 2 ^ (retry + 1)) ∧
    (∀ (env : UploadEnv) (p t d : String) (tags : List String) (c : Int)
        (privacy : PyVal) (cred : Cred),
      env.isfile p = true → 0 < c → privacyOk privacy = true →
      get_creds env.creds = some cred →
      env.events = [.httpError 503, .httpError 503, .httpError 503,
        .response [("id", "abc123")]] →
      (upload env (.str p) (.str t) (.str d) (.set tags) (.int c) privacy).outcome =
        .returned "abc123" ∧
      (upload env (.str p) (.str t) (.str d) (.set tags) (.int c)
          privacy).sleeps.length = 3) := by
  have hfault : stepOfEvent e = .fault := stepOfEvent_fault_of_retriable he
  refine ⟨?_, ?_, ?_⟩
  · intro hgt
    simp [resumableUploadLoop, hfault, hgt]
  · intro hle
    have hnot : ¬MAX_RETRIES < retry + 1 := by omega
    refine ⟨by simp [resumableUploadLoop, hfault, hnot], ?_, ?_⟩
    · positivity
    · calc r * 2 ^ (retry + 1) < 1 * 2 ^ (retry + 1) := by
            exact mul_lt_mul_of_pos_right hr1 (by positivity)
        _ = 2 ^ (retry + 1) := one_mul _
  · intro env p t d tags c privacy cred hfile hc hpriv hcred hevents
    have hc2 : ¬c ≤ 0 := by omega
    simp only [upload, PyVal.isStr, PyVal.isSet, Bool.not_true, hfile, hc2,
      hpriv, hcred, hevents]
    have hloop :
        resumableUploadLoop
          [.httpError 503, .httpError 503, .httpError 503,
            .response [("id", "abc123")]] env.rands 0 false =
          ⟨.ok "abc123",
            [env.rands.headD 0 * 2, env.rands.tail.headD 0 * 4,
              env.rands.tail.tail.headD 0 * 8], 4⟩ := by
      simp [resumableUploadLoop, stepOfEvent, RETRIABLE_STATUS_CODES,
        MAX_RETRIES, List.lookup]
      norm_num
    simp [hloop]

/-- **C2 (witness).** The loop at retry counter 0 with the error variable
unset, on an HTTP 503 fault with random draw 1/2: it recurses with
counter 1 and the error variable set, after a sleep of 1/2 · 2¹ = 1 ∈
[0, 2); and the concrete 3×503-then-success scenario returns "abc123"
with 3 sleeps. -/
theorem upload_retry_backoff_loop_witness :
    (1 ≤ MAX_RETRIES →
      resumableUploadLoop [ChunkEvent.httpError 503] ((1 : ℚ)/2 :: []) 0 false =
        ⟨(resumableUploadLoop [] [] 1 true).result,
          (1 : ℚ)/2 * 2 ^ 1 :: (resumableUploadLoop [] [] 1 true).sleeps,
          (resumableUploadLoop [] [] 1 true).calls + 1⟩ ∧
      0 ≤ (1 : ℚ)/2 * 2 ^ 1 ∧ (1 : ℚ)/2 * 2 ^ 1 < 2 ^ 1) ∧
    ((upload ⟨fun _ => true, ⟨true, some ⟨false⟩⟩,
        [.httpError 503, .httpError 503, .httpError 503,
          .response [("id", "abc123")]], [1/2, 1/3, 1/4]⟩
        (.str "video.mp4") (.str "t") (.str "") (.set []) (.int 22)
        (.str "unlisted")).outcome = .returned "abc123" ∧
      (upload ⟨fun _ => true, ⟨true, some ⟨false⟩⟩,
        [.httpError 503, .httpError 503, .httpError 503,
          .response [("id", "abc123")]], [1/2, 1/3, 1/4]⟩
        (.str "video.mp4") (.str "t") (.str "") (.set []) (.int 22)
        (.str "unlisted")).sleeps.length = 3) :=
  ⟨(upload_retry_backoff_loop (.httpError 503) [] ((1 : ℚ)/2) [] 0 false
      (by decide) (by norm_num) (by norm_num)).2.1,
    (upload_retry_backoff_loop (.httpError 503) [] ((1 : ℚ)/2) [] 0 false
      (by decide) (by norm_num) (by norm_num)).2.2 ⟨fun _ => true,
        ⟨true, some ⟨false⟩⟩,
        [.httpError 503, .httpError 503, .httpError 503,
          .response [("id", "abc123")]], [1/2, 1/3, 1/4]⟩
      "video.mp4" "t" "" [] 22 (.str "unlisted") ⟨false⟩ rfl (by norm_num)
      (by decide) rfl rfl⟩

/-! ## Theorems: Reddit reader -/

/-- **C6 (counterexample).** At the concrete invalid time filter
"yesterday", `get_top_articles` raises `RedditApiException` — the class
every listing-fetch (transport/API) failure of the reader is wrapped
into, i.e. the spec's `SourceApiError` kind — and not an
`InvalidArgument`-kind (`ValueError`) error, contradicting the claim as
stated. -/
theorem get_top_invalid_filter_counterexample :
    get_top_articles "yesterday" [] none none =
      .error (.redditApiException timeFilterMsg) ∧
    specKind (PyExc.redditApiException timeFilterMsg) ≠
      SpecErrorKind.invalidArgument := by
  exact ⟨rfl, by decide⟩

/-- **C6 (amended).** For every `time_filter` value not in
{all, day, hour, month, week, year}, `get_top_articles` fails before any
network call (the result does not depend on the fetched listing, which is
universally quantified) and for all other argument values — but with a
`RedditApiException` (the class the spec maps to `SourceApiError`), not
with an `InvalidArgument`-kind error. -/
theorem get_top_invalid_filter_fails_before_network
    (tf : String) (raw : List Article) (ms : Option Int) (ma : Option ℚ)
    (h : VALID_TIME_FILTERS.contains tf = false) :
    get_top_articles tf raw ms ma =
      .error (.redditApiException timeFilterMsg) := by
  have h2 : tf ∉ VALID_TIME_FILTERS := by simpa using h
  simp [get_top_articles, h2]

/-- **C6 (witness).** The amended statement at the invalid filter
"yesterday" and a non-trivial listing. -/
theorem get_top_invalid_filter_fails_before_network_witness :
    VALID_TIME_FILTERS.contains "yesterday" = false ∧
    get_top_articles "yesterday" [⟨7, 1⟩] (some 3) none =
      .error (.redditApiException timeFilterMsg) :=
  ⟨by decide,
    get_top_invalid_filter_fails_before_network "yesterday" [⟨7, 1⟩] (some 3)
      none (by decide)⟩

/-- **C8.** Whenever `has_video` (at the default arguments `get_video`
uses) returns false, `get_video` fails with `RedditVideoNotFound` (the
spec's `VideoNotFound`). -/
theorem get_video_fails_when_has_video_false
    (title : String) (author : Option String) (media : Option MediaDict)
    (hstat : String → Nat) (h : has_video media none none true = false) :
    get_video title author media hstat = .error .redditVideoNotFound := by
  simp [get_video, h]

/-- **C8 (witness).** An article with no media has no video, and
`get_video` fails with `RedditVideoNotFound` on it. -/
theorem get_video_fails_when_has_video_false_witness :
    has_video none none none true = false ∧
    get_video "t" none none (fun _ => 200) = .error .redditVideoNotFound :=
  ⟨rfl, get_video_fails_when_has_video_false "t" none none (fun _ => 200) rfl⟩

/-- **C5.** For the qualifying native video with fallback URL
`https://v.redd.it/abc123/DASH_240.mp4?source=x`, the derived candidate
audio URL is `https://v.redd.it/abc123/DASH_audio.mp4` (final path
segment replaced, query and fragment stripped); and whenever the HEAD
probe of the candidate audio URL returns a non-success (non-2xx) status,
`get_video` returns a reference whose audio URL is `none` rather than
failing. -/
theorem audio_url_derivation_and_probe :
    deriveAudioUrl "https://v.redd.it/abc123/DASH_240.mp4?source=x" =
      "https://v.redd.it/abc123/DASH_audio.mp4" ∧
    (∀ (title : String) (author : Option String) (rv : RedditVideo)
        (mt : Option String) (hstat : String → Nat),
      rv.is_gif = false →
      isSuccessStatus (hstat (deriveAudioUrl rv.fallback_url)) = false →
      get_video title author (some ⟨some rv, mt⟩) hstat =
        .ok ⟨title, author, rv.fallback_url, none, rv.duration⟩) := by
  constructor
  · rfl
  · intro title author rv mt hstat hgif hfail
    have hne : hstat (deriveAudioUrl rv.fallback_url) ≠ 200 := by
      intro h200
      rw [h200] at hfail
      simp [isSuccessStatus] at hfail
    simp [get_video, has_video, hgif, hne]

/-- **C5 (witness).** The spec's concrete fallback URL, with a probe that
answers 404 (a non-success status): the returned reference carries no
audio URL. -/
theorem audio_url_derivation_and_probe_witness :
    (false : Bool) = false ∧
    isSuccessStatus ((fun _ : String => 404)
      (deriveAudioUrl "https://v.redd.it/abc123/DASH_240.mp4?source=x")) = false ∧
    get_video "t" (some "u")
        (some ⟨some ⟨false, 12, "https://v.redd.it/abc123/DASH_240.mp4?source=x"⟩, none⟩)
        (fun _ => 404) =
      .ok ⟨"t", some "u", "https://v.redd.it/abc123/DASH_240.mp4?source=x",
        none, 12⟩ :=
  ⟨rfl, rfl,
    audio_url_derivation_and_probe.2 "t" (some "u")
      ⟨false, 12, "https://v.redd.it/abc123/DASH_240.mp4?source=x"⟩ none
      (fun _ => 404) rfl rfl⟩

/-! ### Lemmas about the stable score-descending sort -/

/-- Membership through one insertion step. -/
theorem mem_insertByScoreDesc {a x : Article} {l : List Article} :
    a ∈ insertByScoreDesc x l ↔ a = x ∨ a ∈ l := by
  induction l with
  | nil => simp [insertByScoreDesc]
  | cons y ys ih =>
    simp only [insertByScoreDesc]
    split
    · simp only [List.mem_cons, ih]
      tauto
    · simp only [List.mem_cons]

/-- Membership through the whole sort. -/
theorem mem_sortByScoreDesc {a : Article} {l : List Article} :
    a ∈ sortByScoreDesc l ↔ a ∈ l := by
  suffices h : ∀ acc : List Article,
      a ∈ l.foldl (fun acc x => insertByScoreDesc x acc) acc ↔ a ∈ acc ∨ a ∈ l by
    simpa [sortByScoreDesc] using h []
  induction l with
  | nil => simp
  | cons x xs ih =>
    intro acc
    rw [List.foldl_cons, ih]
    simp only [mem_insertByScoreDesc, List.mem_cons]
    tauto

/-- Insertion preserves score-descending sortedness. -/
theorem sorted_insertByScoreDesc {x : Article} {l : List Article}
    (hl : l.Pairwise (fun a b => b.score ≤ a.score)) :
    (insertByScoreDesc x l).Pairwise (fun a b => b.score ≤ a.score) := by
  induction l with
  | nil => simp [insertByScoreDesc]
  | cons y ys ih =>
    rcases List.pairwise_cons.mp hl with ⟨hy, hys⟩
    simp only [insertByScoreDesc]
    split
    · rename_i h
      refine List.pairwise_cons.mpr ⟨?_, ih hys⟩
      intro b hb
      rcases mem_insertByScoreDesc.mp hb with rfl | hb
      · exact h
      · exact hy b hb
    · rename_i h
      push_neg at h
      refine List.pairwise_cons.mpr ⟨?_, hl⟩
      intro b hb
      rcases List.mem_cons.mp hb with rfl | hb
      · exact le_of_lt h
      · exact le_trans (hy b hb) (le_of_lt h)

/-- Stability of one insertion step on a sorted accumulator: among the
articles of any fixed score, the inserted one lands last. -/
theorem filter_insertByScoreDesc {x : Article} {l : List Article} (s : Int)
    (hl : l.Pairwise (fun a b => b.score ≤ a.score)) :
    (insertByScoreDesc x l).filter (fun a => a.score == s) =
      l.filter (fun a => a.score == s) ++
        (if x.score == s then [x] else []) := by
  induction l with
  | nil =>
    simp only [insertByScoreDesc, List.filter_nil, List.nil_append]
    split <;> rename_i h <;> simp [List.filter_cons, h]
  | cons y ys ih =>
    rcases List.pairwise_cons.mp hl with ⟨hy, hys⟩
    simp only [insertByScoreDesc]
    split
    · rename_i hle
      rw [List.filter_cons, List.filter_cons]
      by_cases hsy : (y.score == s) = true
      · simp only [hsy, if_true, ih hys, List.cons_append]
      · simp only [hsy, Bool.false_eq_true, if_false, ih hys]
    · rename_i hgt
      push_neg at hgt
      by_cases hsx : (x.score == s) = true
      · have hylt : ∀ b ∈ y :: ys, (b.score == s) = false := by
          intro b hb
          have hbs : b.score ≤ y.score := by
            rcases List.mem_cons.mp hb with rfl | hb
            · exact le_refl _
            · exact hy b hb
          have : b.score < x.score := lt_of_le_of_lt hbs hgt
          have hxs : x.score = s := by simpa using hsx
          simp only [beq_eq_false_iff_ne, ne_eq]
          omega
        have hnilfilter : (y :: ys).filter (fun a => a.score == s) = [] :=
          List.filter_eq_nil_iff.mpr (by
            intro b hb
            simp [hylt b hb])
        rw [List.filter_cons, hnilfilter]
        simp [hsx]
      · rw [List.filter_cons]
        simp only [hsx, Bool.false_eq_true, if_false]
        simp [hsx]

/-- The fold underlying `sortByScoreDesc`, starting from any sorted
accumulator, stays sorted and — per score — appends the new articles of
that score, in their original order, after those already placed. -/
theorem sortByScoreDesc_fold_invariant (l : List Article) :
    ∀ acc : List Article, acc.Pairwise (fun a b => b.score ≤ a.score) →
      (l.foldl (fun acc x => insertByScoreDesc x acc) acc).Pairwise
        (fun a b => b.score ≤ a.score) ∧
      ∀ s : Int,
        (l.foldl (fun acc x => insertByScoreDesc x acc) acc).filter
            (fun a => a.score == s) =
          acc.filter (fun a => a.score == s) ++
            l.filter (fun a => a.score == s) := by
  induction l with
  | nil =>
    intro acc hacc
    exact ⟨hacc, by simp⟩
  | cons x xs ih =>
    intro acc hacc
    have hacc2 := sorted_insertByScoreDesc (x := x) hacc
    obtain ⟨hs, hf⟩ := ih (insertByScoreDesc x acc) hacc2
    refine ⟨by simpa using hs, ?_⟩
    intro s
    rw [List.foldl_cons, hf s, filter_insertByScoreDesc s hacc,
      List.filter_cons]
    by_cases hsx : (x.score == s) = true
    · simp [hsx]
    · simp [hsx]

/-- Articles kept by `_filter_articles` meet the `min_score` bound. -/
theorem keepArticle_score {minScore : Option Int} {minAge : Option ℚ}
    {a : Article} (h : keepArticle minScore minAge a = true) {ms : Int}
    (hms : minScore = some ms) : ms ≤ a.score := by
  subst hms
  by_contra hlt
  push_neg at hlt
  simp [keepArticle, hlt] at h

/-- Articles kept by `_filter_articles` meet the `min_age` bound. -/
theorem keepArticle_age {minScore : Option Int} {minAge : Option ℚ}
    {a : Article} (h : keepArticle minScore minAge a = true) {ma : ℚ}
    (hma : minAge = some ma) : ma ≤ a.age := by
  subst hma
  by_contra hlt
  push_neg at hlt
  simp [keepArticle, hlt] at h

/-- **C3.** Every listing returned by `get_hot_articles` or (with a valid
time filter) `get_top_articles` respects the `min_score` and `min_age`
bounds when given, has non-increasing scores across the sequence, and —
stability — lists the articles of each fixed score exactly as the
filtering pass produced them. -/
theorem listings_filtered_and_sorted
    (raw : List Article) (minScore : Option Int) (minAge : Option ℚ) :
    (∀ a ∈ get_hot_articles raw minScore minAge,
      ∀ ms, minScore = some ms → ms ≤ a.score) ∧
    (∀ a ∈ get_hot_articles raw minScore minAge,
      ∀ ma, minAge = some ma → ma ≤ a.age) ∧
    (get_hot_articles raw minScore minAge).Pairwise
      (fun a b => b.score ≤ a.score) ∧
    (∀ s : Int,
      (get_hot_articles raw minScore minAge).filter (fun a => a.score == s) =
        (filterArticles raw minScore minAge).filter (fun a => a.score == s)) ∧
    (∀ tf, VALID_TIME_FILTERS.contains tf = true →
      get_top_articles tf raw minScore minAge =
        .ok (get_hot_articles raw minScore minAge)) := by
  obtain ⟨hsorted, hfilter⟩ :=
    sortByScoreDesc_fold_invariant (filterArticles raw minScore minAge) []
      (by simp)
  have hmemkeep : ∀ a ∈ get_hot_articles raw minScore minAge,
      keepArticle minScore minAge a = true := by
    intro a ha
    have : a ∈ filterArticles raw minScore minAge :=
      mem_sortByScoreDesc.mp ha
    exact (List.mem_filter.mp this).2
  refine ⟨?_, ?_, ?_, ?_, ?_⟩
  · intro a ha ms hms
    exact keepArticle_score (hmemkeep a ha) hms
  · intro a ha ma hma
    exact keepArticle_age (hmemkeep a ha) hma
  · exact hsorted
  · intro s
    simpa [get_hot_articles, sortByScoreDesc] using hfilter s
  · intro tf htf
    have : tf ∈ VALID_TIME_FILTERS := by simpa using htf
    simp [get_top_articles, get_hot_articles, this]

/-- **C3 (witness).** A concrete listing: of the articles
(score 5, age 2), (score 3, age 4), (score 7, age 1) with bounds
min_score = 4 and min_age = 2, only the first survives; the bounds hold
of it, the result is sorted, stable, and shared with `get_top_articles`
at the valid filter "day". -/
theorem listings_filtered_and_sorted_witness :
    (4 : Int) ≤ (Article.mk 5 2).score ∧
    (2 : ℚ) ≤ (Article.mk 5 2).age ∧
    (get_hot_articles [⟨5, 2⟩, ⟨3, 4⟩, ⟨7, 1⟩] (some 4) (some 2)).Pairwise
      (fun a b => b.score ≤ a.score) ∧
    get_top_articles "day" [⟨5, 2⟩, ⟨3, 4⟩, ⟨7, 1⟩] (some 4) (some 2) =
      .ok (get_hot_articles [⟨5, 2⟩, ⟨3, 4⟩, ⟨7, 1⟩] (some 4) (some 2)) :=
  ⟨(listings_filtered_and_sorted [⟨5, 2⟩, ⟨3, 4⟩, ⟨7, 1⟩] (some 4)
        (some 2)).1 ⟨5, 2⟩ (by decide) 4 rfl,
    (listings_filtered_and_sorted [⟨5, 2⟩, ⟨3, 4⟩, ⟨7, 1⟩] (some 4)
        (some 2)).2.1 ⟨5, 2⟩ (by decide) 2 rfl,
    (listings_filtered_and_sorted [⟨5, 2⟩, ⟨3, 4⟩, ⟨7, 1⟩] (some 4)
        (some 2)).2.2.1,
    (listings_filtered_and_sorted [⟨5, 2⟩, ⟨3, 4⟩, ⟨7, 1⟩] (some 4)
        (some 2)).2.2.2.2 "day" (by decide)⟩

/-! ### Lemmas about comment-chain expansion -/

/-- A node's `from_praw` value carries the node's score. -/
theorem RawNode.toVal_score (r : RawNode) : r.toVal.score = r.score := by
  cases r <;> rfl

/-- The best-reply scan, started from a current best `cur`: it returns
some node, which is either `cur` itself (when no comment reply strictly
beats it) or the first comment reply attaining a score strictly above
`cur`'s and never matched later. -/
theorem bestReplyAux_some_spec (l : List RawNode) (cur : RawNode) :
    ∃ b, bestReplyAux (some cur) l = some b ∧
      ((b = cur ∧ ∀ x ∈ commentNodes l, x.score ≤ cur.score) ∨
       (∃ pre post, commentNodes l = pre ++ b :: post ∧ cur.score < b.score ∧
         (∀ x ∈ pre, x.score < b.score) ∧ (∀ x ∈ post, x.score ≤ b.score))) := by
  induction l generalizing cur with
  | nil => exact ⟨cur, rfl, .inl ⟨rfl, by simp [commentNodes]⟩⟩
  | cons r rest ih =>
    by_cases hr : r.isComment = true
    · have hfc : commentNodes (r :: rest) = r :: commentNodes rest := by
        simp [commentNodes, List.filter_cons, hr]
      by_cases hlt : cur.score < r.score
      · have hstep : bestReplyAux (some cur) (r :: rest) =
            bestReplyAux (some r) rest := by
          simp [bestReplyAux, hr, hlt]
        obtain ⟨b, hb, hcases⟩ := ih r
        refine ⟨b, by rw [hstep, hb], .inr ?_⟩
        rcases hcases with ⟨rfl, hall⟩ | ⟨pre, post, heq, hgt, hpre, hpost⟩
        · exact ⟨[], commentNodes rest, by simp [hfc], hlt, by simp, hall⟩
        · refine ⟨r :: pre, post, by simp [hfc, heq], lt_trans hlt hgt, ?_, hpost⟩
          intro x hx
          rcases List.mem_cons.mp hx with rfl | hx
          · exact hgt
          · exact hpre x hx
      · have hstep : bestReplyAux (some cur) (r :: rest) =
            bestReplyAux (some cur) rest := by
          simp [bestReplyAux, hr, hlt]
        obtain ⟨b, hb, hcases⟩ := ih cur
        refine ⟨b, by rw [hstep, hb], ?_⟩
        rcases hcases with ⟨rfl, hall⟩ | ⟨pre, post, heq, hgt, hpre, hpost⟩
        · refine .inl ⟨rfl, ?_⟩
          intro x hx
          rw [hfc] at hx
          rcases List.mem_cons.mp hx with rfl | hx
          · exact not_lt.mp hlt
          · exact hall x hx
        · refine .inr ⟨r :: pre, post, by simp [hfc, heq], hgt, ?_, hpost⟩
          intro x hx
          rcases List.mem_cons.mp hx with rfl | hx
          · exact lt_of_le_of_lt (not_lt.mp hlt) hgt
          · exact hpre x hx
    · have hfc : commentNodes (r :: rest) = commentNodes rest := by
        simp [commentNodes, List.filter_cons, hr]
      have hstep : bestReplyAux (some cur) (r :: rest) =
          bestReplyAux (some cur) rest := by
        simp [bestReplyAux, hr]
      obtain ⟨b, hb, hcases⟩ := ih cur
      exact ⟨b, by rw [hstep, hb], by rw [hfc]; exact hcases⟩

/-- The best reply chosen by `_expand_comment`'s scan is the first-seen
comment reply of maximal score: everything before it in the reply order
scores strictly lower, everything after scores no higher. -/
theorem bestReply_first_max {l : List RawNode} {b : RawNode}
    (h : bestReply l = some b) :
    ∃ pre post, commentNodes l = pre ++ b :: post ∧
      (∀ x ∈ pre, x.score < b.score) ∧ (∀ x ∈ post, x.score ≤ b.score) := by
  induction l with
  | nil => simp [bestReply, bestReplyAux] at h
  | cons r rest ih =>
    by_cases hr : r.isComment = true
    · have hfc : commentNodes (r :: rest) = r :: commentNodes rest := by
        simp [commentNodes, List.filter_cons, hr]
      have hstep : bestReply (r :: rest) = bestReplyAux (some r) rest := by
        simp [bestReply, bestReplyAux, hr]
      rw [hstep] at h
      obtain ⟨b2, hb2, hcases⟩ := bestReplyAux_some_spec rest r
      rw [hb2] at h
      obtain rfl : b2 = b := by injection h
      rcases hcases with ⟨rfl, hall⟩ | ⟨pre, post, heq, _, hpre, hpost⟩
      · exact ⟨[], commentNodes rest, by simp [hfc], by simp, hall⟩
      · refine ⟨r :: pre, post, by simp [hfc, heq], ?_, hpost⟩
        intro x hx
        rcases List.mem_cons.mp hx with rfl | hx
        · exact by assumption
        · exact hpre x hx
    · have hfc : commentNodes (r :: rest) = commentNodes rest := by
        simp [commentNodes, List.filter_cons, hr]
      have hstep : bestReply (r :: rest) = bestReply rest := by
        simp [bestReply, bestReplyAux, hr]
      rw [hstep] at h
      obtain ⟨pre, post, heq, h1, h2⟩ := ih h
      exact ⟨pre, post, by rw [hfc, heq], h1, h2⟩

/-- The expanded chain never exceeds the available depth. -/
theorem expandChainN_length (d : Nat) :
    ∀ (replies : List RawNode) (ps : Int) (t : ℚ),
      (expandChainN replies ps t d).length ≤ d := by
  induction d with
  | zero => intro replies ps t; simp [expandChainN]
  | succ n ih =>
    intro replies ps t
    simp only [expandChainN]
    split
    · simp
    · rename_i b heq
      split
      · simp only [List.length_cons]
        have := ih b.replies b.score t
        omega
      · simp

/-- Every link of the expanded chain scores strictly above its parent's
score times the threshold. -/
theorem expandChainN_chainBelow (d : Nat) :
    ∀ (replies : List RawNode) (ps : Int) (t : ℚ),
      chainBelow ps t (expandChainN replies ps t d) = true := by
  induction d with
  | zero => intro replies ps t; simp [expandChainN, chainBelow]
  | succ n ih =>
    intro replies ps t
    simp only [expandChainN]
    split
    · simp [chainBelow]
    · rename_i b heq
      split
      · rename_i hlt
        simp only [chainBelow, RawNode.toVal_score, Bool.and_eq_true,
          decide_eq_true_eq]
        exact ⟨hlt, ih b.replies b.score t⟩
      · simp [chainBelow]

/-- **C4.** `_expand_comment` attaches at most `maxDepth` chained children
below a comment (it is a total function of fuel `maxDepth.toNat`, hence
terminates; `expandChain_eq` shows the fuel matches the source's
`max_depth <= 0` guard and `max_depth - 1` recursion); every attached
link's score strictly exceeds its parent's score times the threshold; and
the chosen best reply is the first-seen comment reply of maximal score —
strictly above everything before it, no lower than everything after. -/
theorem expand_comment_spec (replies : List RawNode) (parentScore : Int)
    (maxDepth : Int) (thres : ℚ) :
    (expandChain replies parentScore maxDepth thres).length ≤ maxDepth.toNat ∧
    chainBelow parentScore thres
      (expandChain replies parentScore maxDepth thres) = true ∧
    (∀ b, bestReply replies = some b →
      ∃ pre post, commentNodes replies = pre ++ b :: post ∧
        (∀ x ∈ pre, x.score < b.score) ∧ (∀ x ∈ post, x.score ≤ b.score)) :=
  ⟨expandChainN_length maxDepth.toNat replies parentScore thres,
    expandChainN_chainBelow maxDepth.toNat replies parentScore thres,
    fun _ h => bestReply_first_max h⟩

/-- **C4 (witness).** A concrete reply tree: two top-level comment replies
of score 10 (the first-seen one wins the tie) plus a skipped non-comment
node; with parent score 4, threshold 1/2 and depth 2 the expansion
attaches the score-10 reply and then its score-8 reply, and stops. -/
theorem expand_comment_spec_witness :
    (expandChain
        [.comment 10 (some "u") "a" [.comment 8 (some "v") "b" []], .more,
          .comment 10 (some "w") "c" []] 4 2 (1/2)).length ≤ (2 : Int).toNat ∧
    chainBelow 4 (1/2)
      (expandChain
        [.comment 10 (some "u") "a" [.comment 8 (some "v") "b" []], .more,
          .comment 10 (some "w") "c" []] 4 2 (1/2)) = true ∧
    (∃ pre post,
      commentNodes
          [.comment 10 (some "u") "a" [.comment 8 (some "v") "b" []], .more,
            .comment 10 (some "w") "c" []] =
        pre ++ RawNode.comment 10 (some "u") "a"
          [.comment 8 (some "v") "b" []] :: post ∧
      (∀ x ∈ pre, x.score < 10) ∧ (∀ x ∈ post, x.score ≤ 10)) :=
  ⟨(expand_comment_spec
      [.comment 10 (some "u") "a" [.comment 8 (some "v") "b" []], .more,
        .comment 10 (some "w") "c" []] 4 2 (1/2)).1,
    (expand_comment_spec
      [.comment 10 (some "u") "a" [.comment 8 (some "v") "b" []], .more,
        .comment 10 (some "w") "c" []] 4 2 (1/2)).2.1,
    (expand_comment_spec
      [.comment 10 (some "u") "a" [.comment 8 (some "v") "b" []], .more,
        .comment 10 (some "w") "c" []] 4 2 (1/2)).2.2
      (.comment 10 (some "u") "a" [.comment 8 (some "v") "b" []]) rfl⟩

/-! ### Lemmas about the comment heap -/

/-- A successful lookup comes from a stored binding. -/
theorem lookup_mem {l : List (Nat × CommentObj)} {r : Nat} {o : CommentObj}
    (h : lookupRef l r = some o) : (r, o) ∈ l := by
  induction l with
  | nil => simp [lookupRef] at h
  | cons a l ih =>
    rw [lookupRef] at h
    split at h
    · rename_i heq
      obtain rfl : a.2 = o := by injection h
      have hra : (r, a.2) = a := by
        rw [← heq]
      rw [hra]
      exact List.mem_cons_self _ _
    · exact List.mem_cons_of_mem _ (ih h)

/-- Allocation does not disturb the binding of any existing id. -/
theorem lookup_alloc_ne {h : Heap} {o : CommentObj} {r : Nat}
    (hne : r ≠ h.next) : (h.alloc o).1.lookup r = h.lookup r := by
  show lookupRef ((h.next, o) :: h.objs) r = lookupRef h.objs r
  rw [lookupRef, if_neg (fun he => hne he.symm)]

/-- The allocated id is bound to the allocated object. -/
theorem lookup_alloc_self (h : Heap) (o : CommentObj) :
    (h.alloc o).1.lookup h.next = some o := by
  show lookupRef ((h.next, o) :: h.objs) h.next = some o
  rw [lookupRef, if_pos rfl]

/-- Updating one object does not disturb the binding of any other id. -/
theorem lookup_update_ne {h : Heap} {n r : Nat} {o : CommentObj}
    (hne : r ≠ n) : (h.update n o).lookup r = h.lookup r := by
  show lookupRef (h.objs.map fun kv => if kv.1 = n then (n, o) else kv) r =
    lookupRef h.objs r
  induction h.objs with
  | nil => rfl
  | cons a l ih =>
    rw [List.map_cons]
    by_cases ha : a.1 = n
    · rw [if_pos ha, lookupRef, lookupRef,
        if_neg (show ¬n = r from fun he => hne he.symm),
        if_neg (show ¬a.1 = r from by omega)]
      exact ih
    · rw [if_neg ha, lookupRef, lookupRef]
      by_cases har : a.1 = r
      · rw [if_pos har, if_pos har]
      · rw [if_neg har, if_neg har]
        exact ih

/-- Two heaps that agree on every id below a bound yield the same
observable chain from any starting reference below that bound, provided
every stored child reference of the first heap stays below the bound. -/
theorem chainVals_eq_of_lookup_eq {h1 h2 : Heap} (bound : Nat)
    (hagree : ∀ r, r < bound → h2.lookup r = h1.lookup r)
    (hclosed : ∀ r o, h1.lookup r = some o → ∀ c, o.childRef = some c →
      c < bound) :
    ∀ (fuel : Nat) (start : Option Nat),
      (∀ r, start = some r → r < bound) →
      chainVals h2 start fuel = chainVals h1 start fuel := by
  intro fuel
  induction fuel with
  | zero =>
    intro start hst
    cases start <;> simp [chainVals]
  | succ n ih =>
    intro start hst
    cases start with
    | none => simp [chainVals]
    | some r =>
      have hr : r < bound := hst r rfl
      simp only [chainVals, hagree r hr]
      cases hl : h1.lookup r with
      | none => rfl
      | some o =>
        show (o.author, o.text, o.score) :: chainVals h2 o.childRef n =
          (o.author, o.text, o.score) :: chainVals h1 o.childRef n
        rw [ih o.childRef (fun c hc => hclosed r o hl c hc)]

/-- Ids bound in a well-formed heap are below the watermark. -/
theorem WF_lt_next {h : Heap} (hWF : h.WF = true) {r : Nat} {o : CommentObj}
    (hr : h.lookup r = some o) : r < h.next := by
  have hmem := lookup_mem hr
  have := List.all_eq_true.mp hWF _ hmem
  rw [Bool.and_eq_true] at this
  simpa using this.1

/-- Child references stored in a well-formed heap are below the
watermark. -/
theorem WF_childRef_lt_next {h : Heap} (hWF : h.WF = true) {r : Nat}
    {o : CommentObj} (hr : h.lookup r = some o) {c : Nat}
    (hc : o.childRef = some c) : c < h.next := by
  have hmem := lookup_mem hr
  have := List.all_eq_true.mp hWF _ hmem
  rw [Bool.and_eq_true] at this
  have h2 := this.2
  rw [hc] at h2
  simpa using h2

/-- **C9.** Reading the `child` property of a comment with a stored child
chain returns a freshly allocated copy — a distinct object from the
stored child, with the same field values — and mutating the returned
copy (reassigning its child to any value) leaves the comment's stored
chain unchanged: a subsequent read of the chain sees the same values as
before the mutation. -/
theorem child_copy_on_read (h : Heap) (r c : Nat) (o co : CommentObj)
    (hWF : h.WF = true) (hr : h.lookup r = some o) (hc : o.childRef = some c)
    (hco : h.lookup c = some co) (v : Option Nat) (fuel : Nat) :
    (childGet h r).2 = some h.next ∧
    h.next ≠ c ∧
    (childGet h r).1.lookup h.next = some co ∧
    (childSet (childGet h r).1 h.next v).lookup r = some o ∧
    chainVals (childSet (childGet h r).1 h.next v) o.childRef fuel =
      chainVals h o.childRef fuel := by
  have hget : childGet h r = ((h.alloc co).1, some h.next) := by
    simp [childGet, hr, hc, hco, Heap.alloc]
  have hclt : c < h.next := WF_childRef_lt_next hWF hr hc
  have hrlt : r < h.next := WF_lt_next hWF hr
  have hlookup1 : (h.alloc co).1.lookup h.next = some co :=
    lookup_alloc_self h co
  have hset : childSet (childGet h r).1 h.next v =
      (h.alloc co).1.update h.next { co with childRef := v } := by
    rw [hget]
    simp [childSet, hlookup1]
  have hagree : ∀ x, x < h.next →
      (childSet (childGet h r).1 h.next v).lookup x = h.lookup x := by
    intro x hx
    rw [hset, lookup_update_ne (by omega), lookup_alloc_ne (by omega)]
  refine ⟨by rw [hget], by omega, by rw [hget]; exact hlookup1, ?_, ?_⟩
  · rw [hagree r hrlt, hr]
  · refine chainVals_eq_of_lookup_eq h.next hagree
      (fun x ox hox cx hcx => WF_childRef_lt_next hWF hox hcx) fuel
      o.childRef (fun x hx => ?_)
    rw [hc] at hx
    injection hx with hx
    exact hx ▸ hclt

/-- **C9 (witness).** A two-object heap — comment 0 whose stored chain is
comment 1 — read, then mutated through the returned copy (id 2): the
stored chain of comment 0 is unchanged. -/
theorem child_copy_on_read_witness :
    (childGet ⟨[(0, ⟨some "a", "t", 5, some 1⟩),
        (1, ⟨some "b", "u", 3, none⟩)], 2⟩ 0).2 = some 2 ∧
    (2 : Nat) ≠ 1 ∧
    chainVals
        (childSet
          (childGet ⟨[(0, ⟨some "a", "t", 5, some 1⟩),
            (1, ⟨some "b", "u", 3, none⟩)], 2⟩ 0).1 2 none)
        (some 1) 3 =
      chainVals ⟨[(0, ⟨some "a", "t", 5, some 1⟩),
        (1, ⟨some "b", "u", 3, none⟩)], 2⟩ (some 1) 3 := by
  have hmain := child_copy_on_read
    ⟨[(0, ⟨some "a", "t", 5, some 1⟩), (1, ⟨some "b", "u", 3, none⟩)], 2⟩
    0 1 ⟨some "a", "t", 5, some 1⟩ ⟨some "b", "u", 3, none⟩
    (by decide) (by decide) rfl (by decide) none 3
  exact ⟨hmain.1, hmain.2.1, hmain.2.2.2.2⟩

end RVidMaker
